/-
Verification development for the spectral-tilt tracing engine
(pypeit/wavetilts.py, class WaveTilts).

The definitions below are a shallow embedding of the Python source:
  * machine floats are modelled as rationals (`ℚ`),
  * numpy arrays as `List`s or index functions,
  * exceptions (`raise ValueError`, `msgs.error`) as `Except` errors,
  * external collaborators (arc.get_censpec, tracewave.trace_tilt,
    tracewave.analyze_lines, tracewave.fit_tilts, the spectrograph object)
    as fields of an environment record, since only their results flow
    through the orchestration code under verification.

Each definition carries a comment pointing at the source lines it embeds.
-/
import Mathlib

/-- Python `str.lower()` for the ASCII method names compared by `run`. -/
def strLower (s : String) : String := ⟨s.data.map Char.toLower⟩

/-! ## The `run` orchestration (wavetilts.py lines 459-521)

`WaveTilts.run` drives: the "zero" short-circuit (lines 483-487), arc
extraction (line 495), the mask/gdslits computation (lines 498-499), the
per-slit loop (lines 505-518) and the final packaging (lines 520-521).
The per-slit body calls `_trace_tilts` (whose tracethresh type check is at
lines 260-267 and whose zero-usable-lines early `return None` is at lines
345-350), then `_analyze_lines` and `_fit_tilts`. -/

/-- np.linspace(0.0, 1.0, n) at index i (run, line 486). -/
def linspace01 (n i : ℕ) : ℚ := if n ≤ 1 then 0 else (i : ℚ) / ((n : ℚ) - 1)

/-- Entries of the `self.steps` log (appended at the end of each stage). -/
inductive Step where
  | extract_arcs : Step
  | trace_tilts : ℕ → Step
  | analyze_lines : ℕ → Step
  | fit_tilts : ℕ → Step
deriving DecidableEq

/-- The runtime type of the `tracethresh` parameter (lines 261-267):
a scalar (`float`/`int`), an array-like (`list`/`np.ndarray`), or
anything else (which raises `ValueError`). -/
inductive TraceThresh where
  | scalar : ℚ → TraceThresh
  | arraylike : List ℚ → TraceThresh
  | invalid : TraceThresh
deriving DecidableEq

/-- The slice of `self.par` read by `run`/`_trace_tilts`/`_fit_tilts`. -/
structure TiltPar where
  method : String
  tracethresh : TraceThresh
  order : ℕ
  yorder : ℕ
  func2D : String

/-- Read-only inputs and abstracted external collaborators of one `run`:
the frame shape, the slit count, and the per-slit results returned by
the external pypeit.core routines that `run` reaches. -/
structure RunEnv where
  /-- msarc.shape[0] -/
  nspec : ℕ
  /-- msarc.shape[1] -/
  nspat : ℕ
  /-- number of slits (tslits_dict['lcen'].shape[1]) -/
  nslit : ℕ
  /-- arc.get_censpec's per-slit failure flags (1 = bad), line 495 -/
  arcMaskslit : List ℕ
  /-- slit has zero usable arc lines, so _trace_tilts returns None
      (lines 345-350) -/
  noLines : ℕ → Bool

/-- Errors that propagate out of `run`. `valueErrorTracethresh` is the
`raise ValueError('Invalid input for parameter tracethresh')` of line 267.
`analyzeNoneTrcdict` models the failure caused by `run` line 510 calling
`_analyze_lines` while `self.all_trcdict[slit]` is still `None`, because
`run` (line 507) discards the `None` that `_trace_tilts` returned at
line 350: `tracewave.analyze_lines` cannot work on `None`.
`nameErrorDebugBlock` is the crash of lines 412-419: for a slit with
usable lines, `_trace_tilts` unconditionally runs
`from IPython import embed; embed()` and then evaluates the undefined
names `msarc_trans`/`xcen_tcrude` (line 419), raising `NameError`
before the `tracewave.trace_tilt` call of line 446 and before the step
append of line 455 — so in this snapshot no slit with usable lines ever
completes, and the analyze/fit/write statements of `run` lines 510-518
are unreachable. -/
inductive RunErr where
  | valueErrorTracethresh : RunErr
  | analyzeNoneTrcdict : RunErr
  | nameErrorDebugBlock : RunErr
deriving DecidableEq

/-- The `tilts_dict` built at line 520. -/
structure TiltsDict where
  tilts : ℕ → ℕ → ℚ
  coeffs : ℕ → List (List ℚ)
  func2D : String

/-- Shape of `run`'s return value: the "zero" branch returns the 3-tuple
`(self.final_tilts, None, None)` (line 487); every other completed run
returns the 2-tuple `(self.tilts_dict, maskslits)` (line 521). -/
inductive RunOutput where
  | zeroMode : (ℕ → ℕ → ℚ) → Option TiltsDict → Option (List Bool) → RunOutput
  | normal : TiltsDict → List Bool → RunOutput

/-- `np.zeros((order + 2, yorder + 1))`: one slice of the line-503 tensor. -/
def zeroCoeffs (par : TiltPar) : List (List ℚ) :=
  List.replicate (par.order + 2) (List.replicate (par.yorder + 1) (0 : ℚ))

/-- Lines 498-499: `self.mask = maskslits & (self.arc_maskslit==1)` and
`gdslits = np.where(self.mask == 0)[0]`.  Note the source combines the
external mask with the arc-extraction mask using `&` (AND), so a slit is
dropped only when it is *both* externally masked *and* failed extraction. -/
def gdslitsOf (env : RunEnv) (maskslits : List Bool) : List ℕ :=
  (List.range env.nslit).filter fun s =>
    !(maskslits.getD s false && (env.arcMaskslit.getD s 0 == 1))

/-- The per-slit loop of `run` (lines 505-518).  The first iteration
embeds `_trace_tilts` as the committed source executes it: the
tracethresh type dispatch (lines 261-267, raising on an invalid type),
then the arc-line detection/selection and the zero-usable-lines early
`None` return (lines 345-350) — in which case `run` (line 507) discards
the `None` and passes the still-`None` trace dict to `_analyze_lines`
(line 510), which fails — and otherwise the left-over debug block of
lines 412-419, which crashes with `NameError` before the
`tracewave.trace_tilt` call (line 446) and the step append (line 455).
Consequently the only completing path is an empty `gdslits`, returning
the zero-initialised `final_tilts`/`coeffs` of lines 502-503 unchanged;
the loop's analyze/fit stages and the line-517/518 region write are
unreachable in this snapshot. -/
def runSlits (par : TiltPar) (env : RunEnv) (gd : List ℕ) (ft : ℕ → ℕ → ℚ)
    (cf : ℕ → List (List ℚ)) (steps : List Step) :
    List Step × Except RunErr ((ℕ → ℕ → ℚ) × (ℕ → List (List ℚ))) :=
  match gd with
  | [] => (steps, .ok (ft, cf))
  | slit :: _ =>
    match par.tracethresh with
    | .invalid => (steps, .error .valueErrorTracethresh)
    | _ =>
      if env.noLines slit then
        (steps, .error .analyzeNoneTrcdict)
      else
        (steps, .error .nameErrorDebugBlock)

/-- `WaveTilts.run` (lines 459-521).  First component: the `self.steps`
log; second: the outcome.  `maskslits?` is the optional argument of
line 459, defaulted at lines 489-490.  Note that `run` never writes to
`maskslits` after the default is filled in: the returned vector is the
input vector. -/
def runModel (par : TiltPar) (env : RunEnv) (maskslits? : Option (List Bool)) :
    List Step × Except RunErr RunOutput :=
  if strLower par.method = "zero" then
    ([], .ok (.zeroMode (fun r _ => linspace01 env.nspec r) none none))
  else
    match runSlits par env
        (gdslitsOf env (maskslits?.getD (List.replicate env.nslit false)))
        (fun _ _ => 0) (fun _ => zeroCoeffs par) [Step.extract_arcs] with
    | (steps, .error e) => (steps, .error e)
    | (steps, .ok (ft, cf)) =>
      (steps, .ok (.normal ⟨ft, cf, par.func2D⟩
        (maskslits?.getD (List.replicate env.nslit false))))

/-! Concrete instantiations used to evaluate the theorems below. -/

/-- a run configured with method "zero" -/
def parZero : TiltPar := ⟨"zero", .scalar 20, 2, 4, "legendre"⟩

/-- a run configured with the default tracing method -/
def parFw : TiltPar := ⟨"fweight", .scalar 20, 2, 4, "legendre"⟩

/-- a run configured with an invalid tracethresh parameter type -/
def parBadThresh : TiltPar := ⟨"fweight", .invalid, 2, 4, "legendre"⟩

/-- 3x4 frame, one slit, arc extraction succeeds, usable lines found -/
def envOneSlit : RunEnv := ⟨3, 4, 1, [0], fun _ => false⟩

/-- same geometry, but the slit yields zero usable arc lines -/
def envNoLines : RunEnv := ⟨3, 4, 1, [0], fun _ => true⟩

/-- an environment with no slits at all -/
def envNoSlit : RunEnv := ⟨3, 4, 0, [], fun _ => false⟩

/-! ## `load_master` (wavetilts.py lines 540-557)

The master file is modelled post-parse: a successfully opened FITS file
is the triple (primary tilts image, coefficient extension, FUNC2D header
card) that lines 551-556 read out of it.  The filesystem is a partial map
from filenames to such parsed files. -/

/-- The parsed content of an existing tilts master file. -/
structure TiltsFileData where
  tilts : List (List ℚ)
  coeffs : List (List (List ℚ))
  func2D : String
deriving DecidableEq

/-- `msgs.error` aborts the reduction (line 547). -/
inductive LoadErr where
  | masterForceCrash : LoadErr
deriving DecidableEq

/-- `WaveTilts.load_master` (lines 540-557): a missing file warns and
returns `None` — unless `force` is set, which crashes out; an existing
file is opened and repackaged as the tilts dict. -/
def load_master (files : String → Option TiltsFileData) (filename : String)
    (force : Bool) : Except LoadErr (Option TiltsFileData) :=
  match files filename with
  | none => if force then .error .masterForceCrash else .ok none
  | some f => .ok (some ⟨f.tilts, f.coeffs, f.func2D⟩)

/-- a filesystem with no master file at all -/
def emptyFS : String → Option TiltsFileData := fun _ => none

/-- a filesystem holding one parsed tilts master file -/
def oneFS : String → Option TiltsFileData :=
  fun n => if n = "MasterTilts_A_01.fits" then some ⟨[[0]], [[[1]]], "legendre"⟩
           else none

/-! ## Arc-line selection (wavetilts.py lines 320-343)

The selection block of `_trace_tilts`: threshold the detected peaks
(`arcdet` positions, `nsig` significances) at `tracethresh`, suppress
neighbours within `n_neigh` pixels, and optionally restrict to
externally identified line positions (`only_these_lines`). -/

/-- `np.abs` on a rational: a kernel-computable spelling of `|x|`
(see `qabs_eq_abs`). -/
def qabs (x : ℚ) : ℚ := if x < 0 then -x else x

/-- the binary `min` step of `np.min`'s reduction, kernel-computable. -/
def qmin (a b : ℚ) : ℚ := if a ≤ b then a else b

/-- Lines 321-323: `aduse = zeros(...); aduse[nsig >= tracethresh] = 1`. -/
def aduseInit (arcdet nsig : List ℚ) (tracethresh : ℚ) : List Bool :=
  (List.range arcdet.length).map fun i => decide (tracethresh ≤ nsig.getD i 0)

/-- Lines 330-334, inner condition for candidate `s`: some peak `j`
within `1.0 <= |arcdet[j]-arcdet[s]| <= n_neigh` has strictly larger
significance (the loop breaks on the first such `j`, which is the same
as testing existence).  `s` here is the candidate's index into `arcdet`
(the source addresses it as `idxuse[s]`, with `detuse[s] = arcdet[idxuse[s]]`
and `nsig[olduse][s] = nsig[idxuse[s]]`). -/
def neighborDrop (arcdet nsig : List ℚ) (n_neigh : ℚ) (s : ℕ) : Bool :=
  (List.range arcdet.length).any fun j =>
    decide (1 ≤ qabs (arcdet.getD j 0 - arcdet.getD s 0))
    && decide (qabs (arcdet.getD j 0 - arcdet.getD s 0) ≤ n_neigh)
    && decide (nsig.getD s 0 < nsig.getD j 0)

/-- Lines 321-334: thresholding followed by the neighbour-suppression
loop `for s in range(nuse): ... aduse[idxuse[s]] = False`.  The loop
reads only the original `arcdet`/`nsig`/`olduse` arrays, so each
iteration is an independent point update at `idxuse[s]`. -/
def suppressNeighbors (arcdet nsig : List ℚ) (tracethresh n_neigh : ℚ) : List Bool :=
  ((List.range arcdet.length).filter fun i =>
      (aduseInit arcdet nsig tracethresh).getD i false).foldl
    (fun aduse s =>
      if neighborDrop arcdet nsig n_neigh s then aduse.set s false else aduse)
    (aduseInit arcdet nsig tracethresh)

/-- Lines 338-343: `np.min(np.abs(arcdet[s] - ids_pix))` (the source
never evaluates it on an empty id list; the `[]` branch is a dummy). -/
def minAbsDist (x : ℚ) : List ℚ → ℚ
  | [] => 0
  | y :: ys => ys.foldl (fun a z => qmin a (qabs (x - z))) (qabs (x - y))

/-- Lines 336-343: when `only_these_lines` is supplied, drop every
usable candidate whose nearest identified position is farther than
2.0 pixels. -/
def ghostFilter (arcdet : List ℚ) (aduse : List Bool) (ids_pix : List ℚ) : List Bool :=
  (List.range arcdet.length).map fun s =>
    aduse.getD s false && ! decide (2 < minAbsDist (arcdet.getD s 0) ids_pix)

/-! ## Per-line tilt tracing with edge clipping (wavetilts.py lines 381-409)

For one selected line, `_trace_tilts` traces a sub-window of `nsub =
spat_max - spat_min` spatial rows centred on the line
(`spat_min/spat_max`, lines 382-383), extracting only the in-bounds rows
`arcimg_trans[fmax(spat_min,0):fmin(spat_max,nspat-1), :]` (line 384),
and records the traced rows into `tilts_sub_mask` / the full-detector
`tilts_mask` column, leaving clipped rows `False` (the arrays start as
zeros, lines 366/372).  We embed the mask bookkeeping; the value and
error arrays are filled with identical indexing.  The three branches are
lines 391-397 (`spat_min < 0`), 398-404 (`spat_max > nspat-1`) and
405-409 (fully interior).  A window clipped at *both* ends takes the
first branch and the numpy assignment
`tilts_sub[-spat_min:, iline] = tilts_now` fails to broadcast (the
slice has `nsub+spat_min` slots but `trace_crude_init` returned
`min(spat_max,nspat-1)-max(spat_min,0)` rows); that failure is the
`none` result. -/

/-- `tilts_sub_mask` column after the lines 392-394 branch:
rows `[-spat_min, nsub)` were assigned `True`. -/
def subMaskLow (spat_min spat_max : ℤ) : List Bool :=
  (List.range (spat_max - spat_min).toNat).map fun (k : ℕ) =>
    decide ((-spat_min) ≤ (k : ℤ))

/-- `tilts_sub_mask` column after the lines 399-401 branch:
rows `[0, nsub - (spat_max - (nspat-1)))` were assigned `True`. -/
def subMaskHigh (spat_min spat_max nspat : ℤ) : List Bool :=
  (List.range (spat_max - spat_min).toNat).map fun (k : ℕ) =>
    decide ((k : ℤ) < (((spat_max - spat_min).toNat : ℤ) - (spat_max - (nspat - 1))))

/-- `tilts_sub_mask` column after the line 406 branch: all rows `True`. -/
def subMaskFull (spat_min spat_max : ℤ) : List Bool :=
  (List.range (spat_max - spat_min).toNat).map fun _ => true

/-- The full-detector `tilts_mask` column write
`tilts_mask[fmax(spat_min,0):fmin(spat_max,nspat-1), iline] = tilts_sub_mask[...]`
(lines 397/404/409): detector row `i` receives sub-window entry
`off + (i - lo)`, rows outside `[lo, hi)` keep their initial `False`. -/
def scatterDet (nspat lo hi : ℤ) (sub : List Bool) (off : ℤ) : List Bool :=
  (List.range nspat.toNat).map fun (i : ℕ) =>
    if lo ≤ (i : ℤ) ∧ (i : ℤ) < hi
    then sub.getD (off + ((i : ℤ) - lo)).toNat false
    else false

/-- The per-line mask computation of lines 381-409 for a window
`[spat_min, spat_max)` on a detector with `nspat` spatial rows; returns
`(tilts_sub_mask column, tilts_mask column)`, or `none` when the
branch-1 numpy broadcast fails (window clipped at both ends). -/
def lineTraceMask (spat_min spat_max nspat : ℤ) : Option (List Bool × List Bool) :=
  if spat_min < 0 then
    if max (((spat_max - spat_min).toNat : ℤ) + spat_min) 0
        = max (min spat_max (nspat - 1) - max spat_min 0) 0 then
      some (subMaskLow spat_min spat_max,
        scatterDet nspat (max spat_min 0) (min spat_max (nspat - 1))
          (subMaskLow spat_min spat_max) (-spat_min))
    else none
  else if (nspat - 1) < spat_max then
    some (subMaskHigh spat_min spat_max nspat,
      scatterDet nspat (max spat_min 0) (min spat_max (nspat - 1))
        (subMaskHigh spat_min spat_max nspat) 0)
  else
    some (subMaskFull spat_min spat_max,
      scatterDet nspat (max spat_min 0) (min spat_max (nspat - 1))
        (subMaskFull spat_min spat_max) 0)

/-- the sub-window mask traced for a window spanning rows [-3, 12) -/
def c6sub : List Bool :=
  [false, false, false, true, true, true, true, true, true, true, true,
   true, true, true, true]

/-- the detector mask column for that window on a 13-row detector -/
def c6det : List Bool :=
  [true, true, true, true, true, true, true, true, true, true, true,
   true, false]

/-! ## Padded-array trace persistence
(save: wavetilts.py lines 586-616; load: lines 144-167)

`save_master` packs one slit's per-line diagnostics into a
`(maxx+1, nlines, 4)` array `fwm_img` pre-filled with the sentinel
`-9999999.9` (line 595), where `maxx` is the largest raw-trace length in
the slit (lines 592-593): channel 0/1 rows `[0, len_kk)` hold
`xtfit`/`ytfit` (lines 602-603), channels 2/3 hold the model traces for
`aduse` lines (lines 605-609), and — for `aduse` lines only — the
line's `ycen` is written into the LAST row (`fwm_img[-1, kk, 1]`,
line 613).  `from_master_files` reads back `fwm_img[:-1, iarc, c]` per
channel, `ycen` from `fwm_img[-1, iarc, 1]` (with the line-156 comment
"Many of these are junk"), and infers `aduse` from
`any(fwm_img[:-1, iarc, 2] > 0)` (lines 153-160). -/

/-- the pad value `-9999999.9` of line 595 -/
def sentinelPad : ℚ := -(99999999 : ℚ) / 10

/-- line 592: `len(xtfit) if xtfit is not None else 0` -/
def xszOf : Option (List ℚ) → ℕ
  | none => 0
  | some l => l.length

/-- line 593: `maxx = np.max(xszs)` -/
def maxxOf (xtfits : List (Option (List ℚ))) : ℕ :=
  xtfits.foldl (fun a xt => max a (xszOf xt)) 0

/-- the running `model_cnt` of lines 597/609 when the loop reaches line
`kk`: the number of earlier lines that were not skipped (`xtfit` not
None, line 599) and had `aduse` set (line 605). -/
def modelCnt (xtfits : List (Option (List ℚ))) (aduse : List Bool) (kk : ℕ) : ℕ :=
  ((List.range kk).filter fun j =>
    !(xtfits.getD j none).isNone && aduse.getD j false).length

/-- One cell `fwm_img[i, kk, c]` after the fill loop of lines 596-613,
given line `kk`'s data: its raw trace `xt?` (None lines are skipped
entirely and stay sentinel), `ytfit` row `yt`, `aduse` flag `ad`, model
traces `xm`/`ym` (already resolved through `model_cnt`), and the
`ycen` of line 612. -/
def fwmEntry (xt? : Option (List ℚ)) (yt : List ℚ) (ad : Bool)
    (xm ym : List ℚ) (yc : ℚ) (maxx i c : ℕ) : ℚ :=
  match xt? with
  | none => sentinelPad
  | some xt =>
    if c = 0 then
      if i < xt.length then xt.getD i 0 else sentinelPad
    else if c = 1 then
      if i < xt.length then yt.getD i 0
      else if ad = true ∧ i = maxx then yc
      else sentinelPad
    else if c = 2 then
      if ad = true ∧ i < xm.length then xm.getD i 0 else sentinelPad
    else
      if ad = true ∧ i < ym.length then ym.getD i 0 else sentinelPad

/-- The `fwm_img` built by `save_master` for one slit (lines 592-613),
as rows x lines x channels. -/
def saveFwm (xtfits : List (Option (List ℚ))) (ytfits : List (List ℚ))
    (aduse : List Bool) (xmodels ymodels : List (List ℚ)) (ycens : List ℚ) :
    List (List (List ℚ)) :=
  (List.range (maxxOf xtfits + 1)).map fun (i : ℕ) =>
    (List.range xtfits.length).map fun (kk : ℕ) =>
      (List.range 4).map fun (c : ℕ) =>
        fwmEntry (xtfits.getD kk none) (ytfits.getD kk [])
          (aduse.getD kk false) (xmodels.getD (modelCnt xtfits aduse kk) [])
          (ymodels.getD (modelCnt xtfits aduse kk) []) (ycens.getD kk 0)
          (maxxOf xtfits) i c

/-- `fwm_img[:-1, iarc, c]` read back by `from_master_files`
(lines 154-155/158-159). -/
def readChan (fwm : List (List (List ℚ))) (iarc c : ℕ) : List ℚ :=
  fwm.dropLast.map fun row => (row.getD iarc []).getD c 0

/-- `fwm_img[-1, iarc, 1]` (line 156): the read-back `ycen`. -/
def readYcen (fwm : List (List (List ℚ))) (iarc : ℕ) : ℚ :=
  ((fwm.getLastD []).getD iarc []).getD 1 0

/-- `np.any(fwm_img[:-1, iarc, 2] > 0)` (line 157): the inferred
`aduse` flag. -/
def readAduse (fwm : List (List (List ℚ))) (iarc : ℕ) : Bool :=
  fwm.dropLast.any fun row => decide ((0 : ℚ) < (row.getD iarc []).getD 2 0)

/-- a slit with three traced lines of raw-trace lengths [5, 9, 3] -/
def c4xt : List (Option (List ℚ)) :=
  [some [1, 2, 3, 4, 5], some [1, 2, 3, 4, 5, 6, 7, 8, 9], some [1, 2, 3]]

/-- the matching ytfit rows -/
def c4yt : List (List ℚ) :=
  [[11, 12, 13, 14, 15], [11, 12, 13, 14, 15, 16, 17, 18, 19], [11, 12, 13]]

/-- all three lines model-fitted -/
def c4ad : List Bool := [true, true, true]

/-- the model traces (positive, so the read-back aduse inference fires) -/
def c4xm : List (List ℚ) :=
  [[1, 2, 3, 4, 5], [1, 2, 3, 4, 5, 6, 7, 8, 9], [1, 2, 3]]

/-- the model ytfit traces -/
def c4ym : List (List ℚ) :=
  [[21, 22, 23, 24, 25], [21, 22, 23, 24, 25, 26, 27, 28, 29], [21, 22, 23]]

/-- the three y_center values of line 612 -/
def c4yc : List ℚ := [7/2, 9/2, 11/2]

/-! ## Generic list access helper -/

/-- `((List.range n).map f).getD i d` evaluates `f` under the bound. -/
theorem getD_range_map {α : Type} (n : ℕ) (f : ℕ → α) (i : ℕ) (d : α) :
    ((List.range n).map f).getD i d = if i < n then f i else d := by
  by_cases h : i < n
  · simp [List.getD_eq_getElem?_getD, List.getElem?_map, List.getElem?_range, h]
  · rw [if_neg h, List.getD_eq_getElem?_getD,
      List.getElem?_eq_none (by simpa using Nat.le_of_not_lt h)]
    rfl

/-! ## C3: "zero" tracing method -/

/-- C3: when the configured tracing method is "zero", `run` (lines
483-487) immediately returns the linear-ramp tilt image, whose value at
row `r` and any column is `r/(N-1)` for an `N`-row exposure (`N ≥ 2`),
runs no other stage (the steps log stays empty), and depends on nothing
but the frame height. -/
theorem run_zero_method_ramp (par : TiltPar) (env : RunEnv)
    (maskslits? : Option (List Bool))
    (hm : strLower par.method = "zero") (hn : 2 ≤ env.nspec) :
    runModel par env maskslits? =
      ([], .ok (.zeroMode (fun r _ => linspace01 env.nspec r) none none))
    ∧ ∀ r : ℕ, linspace01 env.nspec r = (r : ℚ) / ((env.nspec : ℚ) - 1) := by
  constructor
  · simp [runModel, hm]
  · intro r
    unfold linspace01
    rw [if_neg (by omega)]

/-- Witness for `run_zero_method_ramp` at a concrete 3x4 exposure. -/
theorem run_zero_method_ramp_witness :
    runModel parZero envOneSlit none =
      ([], .ok (.zeroMode (fun r _ => linspace01 3 r) none none))
    ∧ linspace01 3 1 = (1 : ℚ) / ((3 : ℚ) - 1) := by
  have h := run_zero_method_ramp parZero envOneSlit none (by decide) (by decide)
  exact ⟨h.1, h.2 1⟩

/-! ## C10: shape of run's return value -/

/-- C10: `run` returns the 3-tuple shape `(final_tilts, None, None)`
exactly in "zero" mode (line 487); in every other mode a completed run
returns the 2-tuple shape `(tilts_dict, maskslits)` (line 521). -/
theorem run_return_shape (par : TiltPar) (env : RunEnv)
    (maskslits? : Option (List Bool)) :
    (strLower par.method = "zero" →
      runModel par env maskslits? =
        ([], .ok (.zeroMode (fun r _ => linspace01 env.nspec r) none none)))
    ∧ (strLower par.method ≠ "zero" →
        ∀ steps out, runModel par env maskslits? = (steps, .ok out) →
          ∃ d msk, out = .normal d msk) := by
  constructor
  · intro hm
    simp [runModel, hm]
  · intro hm steps out h
    unfold runModel at h
    rw [if_neg hm] at h
    rcases hrs : runSlits par env
        (gdslitsOf env (maskslits?.getD (List.replicate env.nslit false)))
        (fun _ _ => 0) (fun _ => zeroCoeffs par) [Step.extract_arcs] with ⟨st, res⟩
    rw [hrs] at h
    cases res with
    | error e => simp at h
    | ok p =>
      obtain ⟨ft, cf⟩ := p
      simp only [Prod.mk.injEq] at h
      obtain ⟨-, h2⟩ := h
      cases h2
      exact ⟨_, _, rfl⟩

/-- Witness for `run_return_shape`: both branches at concrete inputs. -/
theorem run_return_shape_witness :
    runModel parZero envOneSlit none =
      ([], .ok (.zeroMode (fun r _ => linspace01 3 r) none none))
    ∧ ∃ d msk,
        (RunOutput.normal ⟨fun _ _ => 0, fun _ => zeroCoeffs parFw, "legendre"⟩ []
          = RunOutput.normal d msk) := by
  refine ⟨(run_return_shape parZero envOneSlit none).1 (by decide), ?_⟩
  obtain ⟨d, msk, h⟩ := (run_return_shape parFw envNoSlit none).2 (by decide)
    [Step.extract_arcs]
    (.normal ⟨fun _ _ => 0, fun _ => zeroCoeffs parFw, "legendre"⟩ []) rfl
  exact ⟨d, msk, h⟩

/-! ## C7: invalid tracethresh parameter type -/

/-- C7 (amended): with an invalid `tracethresh` type and at least one
slit to process, `run` raises the line-267 `ValueError` — but only when
the first good slit reaches `_trace_tilts`, i.e. *after* the arc spectra
were already extracted (step log = [extract_arcs]) and before any
tracing/analyze/fit step. -/
theorem run_invalid_tracethresh (par : TiltPar) (env : RunEnv)
    (maskslits? : Option (List Bool))
    (hm : strLower par.method ≠ "zero") (hth : par.tracethresh = .invalid)
    (hgd : gdslitsOf env (maskslits?.getD (List.replicate env.nslit false)) ≠ []) :
    runModel par env maskslits? = ([Step.extract_arcs], .error .valueErrorTracethresh) := by
  rcases hg : gdslitsOf env (maskslits?.getD (List.replicate env.nslit false))
    with _ | ⟨s, rest⟩
  · exact absurd hg hgd
  · unfold runModel
    rw [if_neg hm, hg]
    unfold runSlits
    rw [hth]

/-- Witness for `run_invalid_tracethresh` at a concrete single-slit run. -/
theorem run_invalid_tracethresh_witness :
    runModel parBadThresh envOneSlit none =
      ([Step.extract_arcs], .error .valueErrorTracethresh) :=
  run_invalid_tracethresh parBadThresh envOneSlit none (by decide) rfl (by decide)

/-- C7 counterexample to the claim as stated: on a concrete run with an
invalid tracethresh type, the `ValueError` is indeed raised, yet the
arc-extraction stage has already run (it is in the step log), so the
error is *not* raised before any computation starts. -/
theorem run_invalid_tracethresh_counterexample :
    (runModel parBadThresh envOneSlit none).2 = .error .valueErrorTracethresh
    ∧ Step.extract_arcs ∈ (runModel parBadThresh envOneSlit none).1 := by
  constructor
  · rfl
  · decide

/-! ## C1: externally masked slits -/

/-- C1: the code contradicts the claim's exclusion.  With
`maskslits = [true]` but a successful arc extraction
(`arc_maskslit = [0]`), line 498's `maskslits & (arc_maskslit==1)` is
`[False]`, so the externally masked slit 0 lands in `gdslits`
(first conjunct) and `run` enters `_trace_tilts` for it: the slit is
*not* excluded from per-slit processing.  The second conjunct pins the
run's outcome to the error raised from *inside* the masked slit's
`_trace_tilts` (the line-419 `NameError` of the left-over debug block,
reached only because slit 0 was selected and its arc lines detected and
traced) — whereas on the claimed behaviour the masked slit would never
be entered at all.  No pipeline completes in this snapshot, so the
line-518 write that would hit the masked slit's region is unreachable;
the violated conjunct is the exclusion itself. -/
theorem run_masked_slit_still_processed :
    gdslitsOf envOneSlit [true] = [0]
    ∧ (runModel parFw envOneSlit (some [true])).2 =
        .error .nameErrorDebugBlock := by
  exact ⟨by decide, rfl⟩

/-! ## C2: slit with zero usable arc lines -/

/-- C2: the code contradicts the claim.  On a slit with zero usable arc
lines, `_trace_tilts` returns `None` at line 350; `run` (line 507)
ignores that value, never sets the slit's `maskslits` entry, and calls
`_analyze_lines` (line 510) with `self.all_trcdict[slit]` still `None`,
which fails instead of completing normally — modelled as the
`analyzeNoneTrcdict` error.  The step log shows only the extraction. -/
theorem run_no_lines_slit_fails :
    (runModel parFw envNoLines none).2 = .error .analyzeNoneTrcdict
    ∧ (runModel parFw envNoLines none).1 = [Step.extract_arcs] := by
  exact ⟨rfl, rfl⟩

/-! ## C9: load_master I/O conditions -/

/-- C9: `load_master` on a missing file returns `None` without raising
when `force` is false, crashes out (`msgs.error`, line 547) when `force`
is true, and on an existing file returns the tilts dict without
raising. -/
theorem load_master_missing_file (files : String → Option TiltsFileData)
    (filename : String) (force : Bool) :
    (files filename = none →
      (force = false → load_master files filename force = .ok none)
      ∧ (force = true →
          load_master files filename force = .error .masterForceCrash))
    ∧ ∀ f, files filename = some f →
        load_master files filename force = .ok (some ⟨f.tilts, f.coeffs, f.func2D⟩) := by
  constructor
  · intro hnone
    constructor
    · intro hf
      unfold load_master
      rw [hnone, hf]
      rfl
    · intro hf
      unfold load_master
      rw [hnone, hf]
      rfl
  · intro f hf
    unfold load_master
    rw [hf]

/-- Witness for `load_master_missing_file` on concrete filesystems. -/
theorem load_master_missing_file_witness :
    load_master emptyFS "MasterTilts_A_01.fits" false = .ok none
    ∧ load_master emptyFS "MasterTilts_A_01.fits" true = .error .masterForceCrash
    ∧ load_master oneFS "MasterTilts_A_01.fits" false =
        .ok (some ⟨[[0]], [[[1]]], "legendre"⟩) := by
  refine ⟨?_, ?_, ?_⟩
  · exact ((load_master_missing_file emptyFS "MasterTilts_A_01.fits" false).1 rfl).1 rfl
  · exact ((load_master_missing_file emptyFS "MasterTilts_A_01.fits" true).1 rfl).2 rfl
  · exact (load_master_missing_file oneFS "MasterTilts_A_01.fits" false).2
      ⟨[[0]], [[[1]]], "legendre"⟩ (by decide)

/-! ## C5: neighbour suppression -/

/-- A fold that conditionally clears entries at the visited indices,
with the condition independent of the accumulator, acts pointwise. -/
theorem foldl_set_false_getD (P : ℕ → Bool) (l : List ℕ) (init : List Bool)
    (i : ℕ) (hi : i < init.length) :
    (l.foldl (fun a s => if P s then a.set s false else a) init).getD i false
      = if i ∈ l ∧ P i = true then false else init.getD i false := by
  induction l generalizing init with
  | nil => simp
  | cons s t ih =>
    rw [List.foldl_cons]
    have hlen : (if P s then init.set s false else init).length = init.length := by
      by_cases hP : P s <;> simp [hP]
    rw [ih (if P s then init.set s false else init) (hlen ▸ hi)]
    by_cases hmem : i ∈ t ∧ P i = true
    · rw [if_pos hmem, if_pos ⟨List.mem_cons_of_mem s hmem.1, hmem.2⟩]
    · rw [if_neg hmem]
      by_cases hsi : s = i
      · subst hsi
        by_cases hP : P s
        · rw [if_pos hP, if_pos ⟨List.mem_cons_self s t, hP⟩,
            List.getD_eq_getElem?_getD, List.getElem?_set_eq_of_lt _ hi]
          rfl
        · rw [if_neg hP, if_neg (fun h => hP h.2)]
      · have hcond : ¬(i ∈ s :: t ∧ P i = true) := by
          intro h
          rcases List.mem_cons.mp h.1 with he | ht
          · exact hsi he.symm
          · exact hmem ⟨ht, h.2⟩
        rw [if_neg hcond]
        by_cases hP : P s
        · rw [if_pos hP, List.getD_eq_getElem?_getD, List.getElem?_set_ne hsi,
            ← List.getD_eq_getElem?_getD]
        · rw [if_neg hP]

/-- C5 (amended): after thresholding and neighbour suppression
(lines 321-334), a peak is usable iff its significance reaches the
threshold *and* no peak of strictly larger significance lies between
1 and `n_neigh` pixels away.  In particular pairs closer than one pixel
never suppress each other, and equal-significance pairs are both kept
(there is no first-examined tie-break). -/
theorem suppressNeighbors_char (arcdet nsig : List ℚ) (θ r : ℚ) (i : ℕ)
    (hi : i < arcdet.length) :
    ((suppressNeighbors arcdet nsig θ r).getD i false = true
      ↔ (θ ≤ nsig.getD i 0 ∧ ∀ j, j < arcdet.length →
          ¬(1 ≤ qabs (arcdet.getD j 0 - arcdet.getD i 0)
            ∧ qabs (arcdet.getD j 0 - arcdet.getD i 0) ≤ r
            ∧ nsig.getD i 0 < nsig.getD j 0))) := by
  have hinit : (aduseInit arcdet nsig θ).getD i false = decide (θ ≤ nsig.getD i 0) := by
    unfold aduseInit
    rw [getD_range_map, if_pos hi]
  have hmem : (i ∈ (List.range arcdet.length).filter
        (fun k => (aduseInit arcdet nsig θ).getD k false))
      ↔ (θ ≤ nsig.getD i 0) := by
    rw [List.mem_filter, List.mem_range]
    constructor
    · intro h
      have h2 := h.2
      rw [hinit] at h2
      exact of_decide_eq_true h2
    · intro h
      exact ⟨hi, by rw [hinit]; exact decide_eq_true h⟩
  have hdrop : (neighborDrop arcdet nsig r i = true)
      ↔ ∃ j, j < arcdet.length ∧ (1 ≤ qabs (arcdet.getD j 0 - arcdet.getD i 0)
          ∧ qabs (arcdet.getD j 0 - arcdet.getD i 0) ≤ r
          ∧ nsig.getD i 0 < nsig.getD j 0) := by
    unfold neighborDrop
    rw [List.any_eq_true]
    constructor
    · rintro ⟨j, hj, hcond⟩
      rw [List.mem_range] at hj
      simp only [Bool.and_eq_true, decide_eq_true_eq] at hcond
      exact ⟨j, hj, hcond.1.1, hcond.1.2, hcond.2⟩
    · rintro ⟨j, hj, h1, h2, h3⟩
      refine ⟨j, List.mem_range.mpr hj, ?_⟩
      simp only [Bool.and_eq_true, decide_eq_true_eq]
      exact ⟨⟨h1, h2⟩, h3⟩
  unfold suppressNeighbors
  rw [foldl_set_false_getD _ _ _ i (by simpa [aduseInit] using hi)]
  rcases Classical.em (θ ≤ nsig.getD i 0) with hθ | hθ
  · rcases Classical.em (neighborDrop arcdet nsig r i = true) with hd | hd
    · rw [if_pos ⟨hmem.mpr hθ, hd⟩]
      constructor
      · intro h
        exact absurd h (by simp)
      · rintro ⟨-, hall⟩
        obtain ⟨j, hj, hcond⟩ := hdrop.mp hd
        exact absurd hcond (hall j hj)
    · rw [if_neg (fun h => hd h.2), hinit]
      constructor
      · intro _
        exact ⟨hθ, fun j hj hcond => hd (hdrop.mpr ⟨j, hj, hcond⟩)⟩
      · intro _
        exact decide_eq_true hθ
  · rw [if_neg (fun h => hθ (hmem.mp h.1)), hinit]
    constructor
    · intro h
      exact absurd (of_decide_eq_true h) hθ
    · rintro ⟨h1, -⟩
      exact absurd h1 hθ

/-- Witness for `suppressNeighbors_char`: the spec's concrete pair —
peaks at 100.0 and 102.0, significances 8.0 and 12.0, radius 15 — keeps
only the position-102.0 peak. -/
theorem suppressNeighbors_char_witness :
    (suppressNeighbors [100, 102] [8, 12] 5 15).getD 1 false = true
    ∧ (suppressNeighbors [100, 102] [8, 12] 5 15).getD 0 false = false := by
  constructor
  · exact (suppressNeighbors_char [100, 102] [8, 12] 5 15 1 (by decide)).mpr
      (by with_unfolding_all decide)
  · with_unfolding_all decide

/-- C5 counterexample to the claim as stated: two candidate-usable peaks
(significances 12 and 12, both above threshold 5) at positions 100 and
102 — separated by 2 pixels, inside the suppression radius 15 — are
BOTH left usable by the code, because line 332 compares with a strict
`>`; the claim demands that exactly one of the pair (here the first
examined) stay usable and the other be dropped. -/
theorem suppressNeighbors_tie_counterexample :
    (5 : ℚ) ≤ 12 ∧ qabs ((102 : ℚ) - 100) ≤ 15
    ∧ (suppressNeighbors [100, 102] [12, 12] 5 15).getD 0 false = true
    ∧ (suppressNeighbors [100, 102] [12, 12] 5 15).getD 1 false = true := by
  with_unfolding_all decide

/-! ## C8: restriction to identified lines -/

/-- `qabs` agrees with the mathematical absolute value. -/
theorem qabs_eq_abs (x : ℚ) : qabs x = |x| := by
  unfold qabs
  split_ifs with h
  · exact (abs_of_neg h).symm
  · exact (abs_of_nonneg (le_of_not_lt h)).symm

/-- `qmin` agrees with the mathematical binary minimum. -/
theorem qmin_eq_min (a b : ℚ) : qmin a b = min a b := by
  unfold qmin
  split_ifs with h
  · exact (min_eq_left h).symm
  · exact (min_eq_right (le_of_not_le h)).symm

/-- `qmin a b ≤ c` iff one of the two arguments is below `c`. -/
theorem qmin_le_iff (a b c : ℚ) : qmin a b ≤ c ↔ a ≤ c ∨ b ≤ c := by
  rw [qmin_eq_min]
  exact min_le_iff

/-- Folding `qmin` over mapped values reaches below `c` iff the seed or
one of the values does. -/
theorem foldl_min_le_iff (g : ℚ → ℚ) (c : ℚ) (l : List ℚ) (a : ℚ) :
    l.foldl (fun b z => qmin b (g z)) a ≤ c ↔ (a ≤ c ∨ ∃ z ∈ l, g z ≤ c) := by
  induction l generalizing a with
  | nil => simp
  | cons y t ih =>
    rw [List.foldl_cons, ih, qmin_le_iff]
    constructor
    · rintro (hac | ⟨z, hz, hgz⟩)
      · rcases hac with h | h
        · exact Or.inl h
        · exact Or.inr ⟨y, List.mem_cons_self y t, h⟩
      · exact Or.inr ⟨z, List.mem_cons_of_mem y hz, hgz⟩
    · rintro (h | ⟨z, hz, hgz⟩)
      · exact Or.inl (Or.inl h)
      · rcases List.mem_cons.mp hz with he | ht
        · subst he
          exact Or.inl (Or.inr hgz)
        · exact Or.inr ⟨z, ht, hgz⟩

/-- `np.min(np.abs(x - ids))` is below `c` iff some id is within `c`. -/
theorem minAbsDist_le_iff (x c : ℚ) (ids : List ℚ) (h : ids ≠ []) :
    minAbsDist x ids ≤ c ↔ ∃ y ∈ ids, qabs (x - y) ≤ c := by
  cases ids with
  | nil => exact absurd rfl h
  | cons y ys =>
    unfold minAbsDist
    rw [foldl_min_le_iff]
    constructor
    · rintro (h1 | ⟨z, hz, hgz⟩)
      · exact ⟨y, List.mem_cons_self y ys, h1⟩
      · exact ⟨z, List.mem_cons_of_mem y hz, hgz⟩
    · rintro ⟨z, hz, hgz⟩
      rcases List.mem_cons.mp hz with he | ht
      · subst he
        exact Or.inl hgz
      · exact Or.inr ⟨z, ht, hgz⟩

/-- C8: with an identified-line list supplied (lines 336-343), a peak
stays usable iff it was usable before the filter *and* some identified
position lies within 2.0 pixels; equivalently, a usable candidate whose
nearest identified position is farther than 2.0 pixels is dropped, and
one within 2.0 pixels keeps its usable status. -/
theorem ghostFilter_keeps_iff (arcdet : List ℚ) (aduse : List Bool)
    (ids : List ℚ) (s : ℕ) (hs : s < arcdet.length) (hids : ids ≠ []) :
    ((ghostFilter arcdet aduse ids).getD s false = true
      ↔ (aduse.getD s false = true
          ∧ ∃ y ∈ ids, qabs (arcdet.getD s 0 - y) ≤ 2)) := by
  unfold ghostFilter
  rw [getD_range_map, if_pos hs]
  simp only [Bool.and_eq_true, Bool.not_eq_true', decide_eq_false_iff_not, not_lt]
  rw [minAbsDist_le_iff _ _ _ hids]

/-- Witness for `ghostFilter_keeps_iff`: the candidate at 100.0 is within
2.0 pixels of the identified line at 101.0 and stays usable; the one at
50.0 is dropped. -/
theorem ghostFilter_keeps_iff_witness :
    (ghostFilter [100, 50] [true, true] [101]).getD 0 false = true
    ∧ (ghostFilter [100, 50] [true, true] [101]).getD 1 false = false := by
  constructor
  · exact (ghostFilter_keeps_iff [100, 50] [true, true] [101] 0 (by decide)
      (by decide)).mpr ⟨rfl, 101, by decide, by with_unfolding_all decide⟩
  · with_unfolding_all decide

/-! ## C6: edge clipping -/

/-- The detector-column scatter: row `i` is marked iff it lies in
`[lo, hi)`, provided the copied sub-window slice is all-true there. -/
theorem scatterDet_getD (nspat lo hi off : ℤ) (sub : List Bool)
    (hhi : hi ≤ nspat)
    (hsub : ∀ i : ℕ, lo ≤ (i : ℤ) → (i : ℤ) < hi →
      sub.getD (off + ((i : ℤ) - lo)).toNat false = true) (i : ℕ) :
    ((scatterDet nspat lo hi sub off).getD i false = true
      ↔ (lo ≤ (i : ℤ) ∧ (i : ℤ) < hi)) := by
  unfold scatterDet
  rw [getD_range_map]
  by_cases hin : i < nspat.toNat
  · rw [if_pos hin]
    by_cases hcond : lo ≤ (i : ℤ) ∧ (i : ℤ) < hi
    · rw [if_pos hcond]
      exact ⟨fun _ => hcond, fun _ => hsub i hcond.1 hcond.2⟩
    · rw [if_neg hcond]
      constructor
      · intro hf
        simp at hf
      · intro hc
        exact absurd hc hcond
  · rw [if_neg hin]
    constructor
    · intro hf
      simp at hf
    · intro hc
      exfalso
      omega

/-- C6: for any traced line whose computation succeeds (in particular any
window clipped at one detector edge), the detector-column `tilts_mask`
marks exactly the rows in `[max(spat_min,0), min(spat_max,nspat-1))` as
traced — so a marked row always lies inside both the window and the
detector, out-of-window and out-of-bounds rows stay `False` (never
extrapolated) — and every sub-window row that falls below row 0 of the
detector keeps `valid_mask = False`. -/
theorem lineTrace_edge_clipping (spat_min spat_max nspat : ℤ)
    (sub det : List Bool)
    (h : lineTraceMask spat_min spat_max nspat = some (sub, det)) :
    (∀ i : ℕ, (det.getD i false = true
        ↔ (max spat_min 0 ≤ (i : ℤ) ∧ (i : ℤ) < min spat_max (nspat - 1))))
    ∧ (∀ k : ℕ, spat_min + (k : ℤ) < 0 → sub.getD k false = false) := by
  unfold lineTraceMask at h
  split_ifs at h with hneg hbc hhigh
  · -- branch 1: spat_min < 0 (lines 391-397), broadcast succeeded
    rw [Option.some.injEq, Prod.mk.injEq] at h
    obtain ⟨hs, hd⟩ := h
    subst hs
    subst hd
    constructor
    · intro i
      refine scatterDet_getD nspat _ _ _ _ (by omega) ?_ i
      intro j h1 h2
      unfold subMaskLow
      rw [getD_range_map, if_pos (by omega)]
      rw [decide_eq_true_eq]
      omega
    · intro k hk
      unfold subMaskLow
      rw [getD_range_map]
      by_cases hbnd : k < (spat_max - spat_min).toNat
      · rw [if_pos hbnd]
        rw [decide_eq_false_iff_not]
        omega
      · rw [if_neg hbnd]
  · -- branch 2: spat_min >= 0, spat_max > nspat-1 (lines 398-404)
    rw [Option.some.injEq, Prod.mk.injEq] at h
    obtain ⟨hs, hd⟩ := h
    subst hs
    subst hd
    constructor
    · intro i
      refine scatterDet_getD nspat _ _ _ _ (by omega) ?_ i
      intro j h1 h2
      unfold subMaskHigh
      rw [getD_range_map, if_pos (by omega)]
      rw [decide_eq_true_eq]
      omega
    · intro k hk
      exfalso
      omega
  · -- branch 3: fully interior (lines 405-409)
    rw [Option.some.injEq, Prod.mk.injEq] at h
    obtain ⟨hs, hd⟩ := h
    subst hs
    subst hd
    constructor
    · intro i
      refine scatterDet_getD nspat _ _ _ _ (by omega) ?_ i
      intro j h1 h2
      unfold subMaskFull
      rw [getD_range_map, if_pos (by omega)]
    · intro k hk
      exfalso
      omega

/-- Witness for `lineTrace_edge_clipping`: the spec's window spanning
spatial rows [-3, 12) on a 13-row detector.  The computation succeeds,
detector rows [0, 12) are exactly the ones marked valid (row 11 checked
through the theorem), and sub-window row 2 — absolute row -1 — stays
invalid. -/
theorem lineTrace_edge_clipping_witness :
    lineTraceMask (-3) 12 13 = some (c6sub, c6det)
    ∧ c6det.getD 11 false = true
    ∧ c6sub.getD 2 false = false := by
  have h : lineTraceMask (-3) 12 13 = some (c6sub, c6det) := by
    with_unfolding_all decide
  refine ⟨h, ?_, ?_⟩
  · exact ((lineTrace_edge_clipping (-3) 12 13 c6sub c6det h).1 11).mpr
      (by with_unfolding_all decide)
  · exact (lineTrace_edge_clipping (-3) 12 13 c6sub c6det h).2 2 (by decide)

/-! ## C4: padded-array persistence round trip -/

/-- Peeling the seed out of a `foldl max`. -/
theorem foldl_max_shift (f : Option (List ℚ) → ℕ) (l : List (Option (List ℚ)))
    (a : ℕ) :
    l.foldl (fun b x => max b (f x)) a
      = max a (l.foldl (fun b x => max b (f x)) 0) := by
  induction l generalizing a with
  | nil => simp
  | cons y t ih =>
    rw [List.foldl_cons, List.foldl_cons, ih (max a (f y)), ih (max 0 (f y))]
    omega

/-- Every line's raw-trace length is bounded by the line-593 maximum. -/
theorem xsz_le_maxxOf (xtfits : List (Option (List ℚ))) (kk : ℕ) :
    xszOf (xtfits.getD kk none) ≤ maxxOf xtfits := by
  induction xtfits generalizing kk with
  | nil => simp [xszOf, maxxOf]
  | cons x t ih =>
    unfold maxxOf
    rw [List.foldl_cons, foldl_max_shift]
    cases kk with
    | zero =>
      rw [List.getD_cons_zero]
      omega
    | succ k =>
      have hk := ih k
      unfold maxxOf at hk
      rw [List.getD_cons_succ]
      omega

/-- `fwm_img[:-1]` of an `(n+1)`-row map over `range`. -/
theorem dropLast_range_map {α : Type} (n : ℕ) (f : ℕ → α) :
    ((List.range (n + 1)).map f).dropLast = (List.range n).map f := by
  rw [List.range_succ, List.map_append]
  simp

/-- `fwm_img[-1]` of an `(n+1)`-row map over `range`. -/
theorem getLastD_range_map {α : Type} (n : ℕ) (f : ℕ → α) (d : α) :
    ((List.range (n + 1)).map f).getLastD d = f n := by
  rw [List.range_succ, List.map_append]
  simp

/-- The `some` equation of `fwmEntry`, for rewriting. -/
theorem fwmEntry_some (xt : List ℚ) (yt : List ℚ) (ad : Bool)
    (xm ym : List ℚ) (yc : ℚ) (maxx i c : ℕ) :
    fwmEntry (some xt) yt ad xm ym yc maxx i c
      = (if c = 0 then
          if i < xt.length then xt.getD i 0 else sentinelPad
        else if c = 1 then
          if i < xt.length then yt.getD i 0
          else if ad = true ∧ i = maxx then yc
          else sentinelPad
        else if c = 2 then
          if ad = true ∧ i < xm.length then xm.getD i 0 else sentinelPad
        else
          if ad = true ∧ i < ym.length then ym.getD i 0 else sentinelPad) := rfl

/-- Reading channel `c` of line `kk` back from the saved array gives the
fill-loop cell values of the `maxx` data rows. -/
theorem readChan_saveFwm (xtfits : List (Option (List ℚ)))
    (ytfits : List (List ℚ)) (aduse : List Bool)
    (xmodels ymodels : List (List ℚ)) (ycens : List ℚ) (kk c : ℕ)
    (hkk : kk < xtfits.length) (hc : c < 4) :
    readChan (saveFwm xtfits ytfits aduse xmodels ymodels ycens) kk c
      = (List.range (maxxOf xtfits)).map (fun (i : ℕ) =>
          fwmEntry (xtfits.getD kk none) (ytfits.getD kk [])
            (aduse.getD kk false) (xmodels.getD (modelCnt xtfits aduse kk) [])
            (ymodels.getD (modelCnt xtfits aduse kk) []) (ycens.getD kk 0)
            (maxxOf xtfits) i c) := by
  unfold readChan saveFwm
  rw [dropLast_range_map, List.map_map]
  refine List.map_congr_left ?_
  intro i hi
  simp only [Function.comp]
  rw [getD_range_map, if_pos hkk, getD_range_map, if_pos hc]

/-- C4 (amended): the padded round trip for a line with raw trace `xt`.
The read-back raw-centres sequence does NOT have `xt`'s length: it has
the common padded length `maxx` (the slit-wide maximum), its first
`len(xt)` entries equal `xt` and the remaining entries are the sentinel
(so real data is recoverable only by sentinel scanning); and the
read-back `y_center` — stored at the LAST padded row, not the row just
past the line's valid length — equals the saved one exactly when the
line had `aduse = True`, and is the sentinel otherwise. -/
theorem save_read_roundtrip (xtfits : List (Option (List ℚ)))
    (ytfits : List (List ℚ)) (aduse : List Bool)
    (xmodels ymodels : List (List ℚ)) (ycens : List ℚ) (kk : ℕ) (xt : List ℚ)
    (hkk : kk < xtfits.length) (hxt : xtfits.getD kk none = some xt) :
    (readChan (saveFwm xtfits ytfits aduse xmodels ymodels ycens) kk 0).length
        = maxxOf xtfits
    ∧ (∀ i, i < xt.length →
        (readChan (saveFwm xtfits ytfits aduse xmodels ymodels ycens) kk 0).getD i 0
          = xt.getD i 0)
    ∧ (∀ i, xt.length ≤ i → i < maxxOf xtfits →
        (readChan (saveFwm xtfits ytfits aduse xmodels ymodels ycens) kk 0).getD i 0
          = sentinelPad)
    ∧ readYcen (saveFwm xtfits ytfits aduse xmodels ymodels ycens) kk
        = (if aduse.getD kk false = true then ycens.getD kk 0 else sentinelPad) := by
  have hlen : xt.length ≤ maxxOf xtfits := by
    have h := xsz_le_maxxOf xtfits kk
    rw [hxt] at h
    exact h
  have hread := readChan_saveFwm xtfits ytfits aduse xmodels ymodels ycens kk 0
    hkk (by omega)
  refine ⟨?_, ?_, ?_, ?_⟩
  · rw [hread]
    simp
  · intro i hi
    rw [hread, getD_range_map, if_pos (by omega), hxt, fwmEntry_some,
      if_pos rfl, if_pos hi]
  · intro i hi1 hi2
    rw [hread, getD_range_map, if_pos hi2, hxt, fwmEntry_some,
      if_pos rfl, if_neg (by omega)]
  · unfold readYcen saveFwm
    rw [getLastD_range_map, getD_range_map, if_pos hkk, getD_range_map,
      if_pos (by omega), hxt, fwmEntry_some, if_neg (by omega),
      if_pos rfl, if_neg (by omega)]
    by_cases had : aduse.getD kk false = true
    · rw [if_pos ⟨had, rfl⟩, if_pos had]
    · rw [if_neg (fun hc => had hc.1), if_neg had]

/-- Witness for `save_read_roundtrip` on the `[5, 9, 3]` slit: the
read-back line 0 has the padded length, reproduces entry 4, pads entry 7
with the sentinel, and reproduces the saved `y_center`. -/
theorem save_read_roundtrip_witness :
    (readChan (saveFwm c4xt c4yt c4ad c4xm c4ym c4yc) 0 0).length = maxxOf c4xt
    ∧ (readChan (saveFwm c4xt c4yt c4ad c4xm c4ym c4yc) 0 0).getD 4 0
        = ([1, 2, 3, 4, 5] : List ℚ).getD 4 0
    ∧ (readChan (saveFwm c4xt c4yt c4ad c4xm c4ym c4yc) 0 0).getD 7 0 = sentinelPad
    ∧ readYcen (saveFwm c4xt c4yt c4ad c4xm c4ym c4yc) 0
        = (if c4ad.getD 0 false = true then c4yc.getD 0 0 else sentinelPad) := by
  obtain ⟨h1, h2, h3, h4⟩ := save_read_roundtrip c4xt c4yt c4ad c4xm c4ym c4yc 0
    [1, 2, 3, 4, 5] (by decide) (by with_unfolding_all decide)
  exact ⟨h1, h2 4 (by decide), h3 7 (by decide) (by with_unfolding_all decide), h4⟩

/-- C4 counterexample to the claim as stated, on the `[5, 9, 3]` slit:
(1) the read-back raw-centres sequence of line 0 is not the original
5-entry sequence (it is 9 entries, sentinel-padded); (2) the saved array
does NOT hold line 2's `y_center` at the row immediately past its valid
raw-trace length (row 3, channel 1 is the sentinel); (3) the `y_center`
actually sits at the last padded row (row 9 = maxx). -/
theorem save_read_not_exact :
    readChan (saveFwm c4xt c4yt c4ad c4xm c4ym c4yc) 0 0 ≠ [1, 2, 3, 4, 5]
    ∧ (((saveFwm c4xt c4yt c4ad c4xm c4ym c4yc).getD 3 []).getD 2 []).getD 1 0
        ≠ c4yc.getD 2 0
    ∧ (((saveFwm c4xt c4yt c4ad c4xm c4ym c4yc).getD 9 []).getD 2 []).getD 1 0
        = c4yc.getD 2 0 := by
  with_unfolding_all decide
